import Mathlib

/-!
Shallow embedding of `src/platform_impl/linux/x11/event_processor.rs`
(the X11 event processor of winit): the dispatcher state, the DND
handshake, key-repeat tracking, touch tracking, focus transitions, the
geometry (ConfigureNotify) reconciler, the device-hierarchy branch, the
raw-key branch and the trailing IME step of `EventProcessor::process_event`.

External collaborators (connection, atoms, keymap backend, frame-extents
and monitor queries, the IME backend) are modelled as an environment of
pure functions; protocol replies (`XdndStatus`, `XdndFinished`,
selection-conversion and resize requests) are modelled as outputs so that
their order and payload can be reasoned about together with the semantic
events handed to the sink.

Machine integers: `u32` values are `Nat` (with explicit `% 2 ^ 32` where
the source can wrap and explicit truncated subtraction where the source
saturates); `i32`/`i16` coordinates are `Int`.
-/

namespace WinitX11

/-- The X11 documentation states: "Keycodes lie in the inclusive range
`[8, 255]`" (`KEYCODE_OFFSET` in the source). -/
def KEYCODE_OFFSET : Nat := 8

/-- `util::VIRTUAL_CORE_POINTER` (X11 core pointer device id). -/
def VIRTUAL_CORE_POINTER : Nat := 2

/-- `util::VIRTUAL_CORE_KEYBOARD` (X11 core keyboard device id). -/
def VIRTUAL_CORE_KEYBOARD : Nat := 3

/-- `DndState` of the source: the status carried by `XdndStatus` /
`XdndFinished` replies. -/
inductive DndStatus
  | accepted
  | rejected
deriving DecidableEq, Repr

/-- Result of `Dnd::parse_data`: `Ok` carries a list of file paths
(paths abstracted to `Nat`), `err` is a parse failure. -/
inductive ParseResult
  | ok (paths : List Nat)
  | err
deriving DecidableEq, Repr

/-- The `Dnd` session state: `version`, `type_list`, `source_window`,
`result` — exactly the fields the event processor reads and writes.
Atoms are abstracted to `Nat`. -/
structure DndRec where
  version : Option Nat := none
  type_list : Option (List Nat) := none
  source_window : Option Nat := none
  result : Option ParseResult := none
deriving DecidableEq, Repr

/-- Modelled from the spec: `Dnd::reset` lives outside `src/`
(`dnd.rs`); the spec states the DND state is "fully reset (all fields to
empty/`None`) after every terminal transition". -/
def DndRec.reset : DndRec := {}

/-- External collaborators of the DND handshake: the designated
"file list" type atom (`TextUriList`), the out-of-band type-list query
(`Dnd::get_type_list`), the selection read (`Dnd::read_data`) and the
parser (`Dnd::parse_data`), all implemented outside `src/` in `dnd.rs`
and abstracted as pure functions (`none` models the fallible `Err` case). -/
structure DndEnv where
  textUriList : Nat
  getTypeList : Nat → Option (List Nat)
  readData : Nat → Option (List Nat)
  parseData : List Nat → ParseResult

/-- Touch phases as used by the dispatcher (`TouchPhase`). -/
inductive TouchPhaseM
  | started
  | moved
  | ended
  | cancelled
deriving DecidableEq, Repr

/-- One entry of an `XinputHierarchy` notification: a device id plus its
`HierarchyMask` flags word. -/
structure HierarchyInfo where
  deviceid : Nat
  flags : Nat
deriving DecidableEq, Repr

/-- `xinput::HierarchyMask::MASTER_ADDED`. -/
def MASTER_ADDED : Nat := 1
/-- `xinput::HierarchyMask::MASTER_REMOVED`. -/
def MASTER_REMOVED : Nat := 2
/-- `xinput::HierarchyMask::SLAVE_ADDED`. -/
def SLAVE_ADDED : Nat := 4
/-- `xinput::HierarchyMask::SLAVE_REMOVED`. -/
def SLAVE_REMOVED : Nat := 8

/-- x11rb mask `contains`: true when every bit of `mask` is set in
`flags` (`(self & flag) == flag`), as opposed to `intersects`, which
tests for any common bit. -/
def hierContains (flags mask : Nat) : Bool := flags &&& mask = mask

/-- `MouseButton` as produced by the button branch. -/
inductive MouseButton
  | left
  | middle
  | right
  | back
  | forward
  | other (n : Nat)
deriving DecidableEq, Repr

/-- Everything `process_event` pushes outward: semantic window/device
events handed to the sink, plus protocol requests/replies
(`XdndStatus`, `XdndFinished`, the selection-conversion request, resize
requests), kept in one ordered list. -/
inductive Out
  | droppedFile (window path : Nat)
  | hoveredFile (window path : Nat)
  | hoveredFileCancelled (window : Nat)
  | sendStatus (window target : Nat) (s : DndStatus)
  | sendFinished (window target : Nat) (s : DndStatus)
  | convertSelection (window time : Nat)
  | keyboardInput (window keycode : Nat) (pressed rep synthetic : Bool)
  | mouseInput (window deviceid : Nat) (pressed : Bool) (button : MouseButton)
  | mouseWheel (window deviceid : Nat) (dx dy : Rat)
  | axisMotion (window deviceid axis : Nat) (value : Rat)
  | modifiersChanged (window mods : Nat)
  | focused (window : Nat) (f : Bool)
  | cursorMoved (window deviceid : Nat) (x y : Int)
  | touchEvent (window deviceid : Nat) (phase : TouchPhaseM) (x y : Int) (id : Nat)
  | deviceKey (deviceid keycode : Nat) (pressed : Bool)
  | deviceAdded (deviceid : Nat)
  | deviceRemoved (deviceid : Nat)
  | resized (window w h : Nat)
  | moved (window : Nat) (x y : Int)
  | scaleFactorChanged (window sf : Nat)
  | requestInnerSize (window w h : Nat)
  | imeEnabledEvent (window : Nat)
  | imePreedit (window : Nat) (text : String) (pos : Option Nat)
  | imeCommit (window : Nat) (text : String)
  | imeDisabledEvent (window : Nat)
deriving DecidableEq, Repr

/-- `util::maybe_change`: store `value` into the optional cached field,
returning the new field together with whether the stored value changed
(`true` when the cache was empty or held a different value). -/
def maybeChange {α : Type} [DecidableEq α] (field : Option α) (value : α) :
    Option α × Bool :=
  match field with
  | some old => (some value, decide (old ≠ value))
  | none => (some value, true)

/-- The `XdndEnter` branch: record the protocol version (top byte of the
flags word); when bit 0 of the flags is clear the three inline type atoms
form the type list, otherwise the list is fetched out-of-band via
`Dnd::get_type_list` (left unchanged if that query fails). -/
def processXdndEnter (env : DndEnv) (dnd : DndRec)
    (data0 flags d2 d3 d4 : Nat) : DndRec :=
  let version := flags / 2 ^ 24
  let dnd := { dnd with version := some version }
  let hasMoreTypes := flags % 2 = 1
  if ¬hasMoreTypes then
    { dnd with type_list := some [d2, d3, d4] }
  else
    match env.getTypeList data0 with
    | some moreTypes => { dnd with type_list := some moreTypes }
    | none => dnd

/-- The `XdndPosition` branch: acceptance is decided solely by whether
the advertised type list contains the `TextUriList` atom. On acceptance
the source window is recorded, a selection conversion is requested when
no result is cached yet, and an `Accepted` status reply is sent; on
rejection a `Rejected` status reply is sent and the DND state is reset.
`data3` is the message timestamp (`x11rb::CURRENT_TIME = 0` is used for
protocol version 0). -/
def processXdndPosition (env : DndEnv) (dnd : DndRec)
    (window data0 data3 : Nat) : DndRec × List Out :=
  let source_window := data0
  let version := dnd.version.getD 5
  let accepted :=
    match dnd.type_list with
    | some type_list => decide (env.textUriList ∈ type_list)
    | none => false
  if accepted then
    let dnd := { dnd with source_window := some source_window }
    let convertOuts :=
      if dnd.result = none then
        let time := if version ≥ 1 then data3 else 0
        [Out.convertSelection window time]
      else []
    (dnd, convertOuts ++ [Out.sendStatus window source_window DndStatus.accepted])
  else
    (DndRec.reset, [Out.sendStatus window source_window DndStatus.rejected])

/-- The `XdndDrop` branch: when a source window is cached, emit one
`DroppedFile` per path of a cached successful result (if any) and reply
`Finished(Accepted)`; when no source window is cached (the drop was
rejected earlier), recover the source from the message itself and reply
`Finished(Rejected)`. The DND state is reset afterwards. -/
def processXdndDrop (dnd : DndRec) (window data0 : Nat) : DndRec × List Out :=
  let fileOuts :=
    match dnd.source_window, dnd.result with
    | some _, some (ParseResult.ok path_list) =>
        path_list.map fun p => Out.droppedFile window p
    | _, _ => []
  let target :=
    match dnd.source_window with
    | some sw => (sw, DndStatus.accepted)
    | none => (data0, DndStatus.rejected)
  (DndRec.reset, fileOuts ++ [Out.sendFinished window target.1 target.2])

/-- The `XdndLeave` branch: reset the DND state and emit
`HoveredFileCancelled`. -/
def processXdndLeave (dnd : DndRec) (window : Nat) : DndRec × List Out :=
  let _ := dnd
  (DndRec.reset, [Out.hoveredFileCancelled window])

/-- The `SelectionNotify` branch for the `XdndSelection` property: read
the transferred data; on success parse it, emit one `HoveredFile` per
path of a successful parse, and cache the parse result (success or
failure); on a read failure the cached result is overwritten with
`none`. -/
def processSelectionNotify (env : DndEnv) (dnd : DndRec) (window : Nat) :
    DndRec × List Out :=
  match env.readData window with
  | some data =>
    let parse_result := env.parseData data
    let outs :=
      match parse_result with
      | ParseResult.ok path_list => path_list.map fun p => Out.hoveredFile window p
      | ParseResult.err => []
    ({ dnd with result := some parse_result }, outs)
  | none => ({ dnd with result := none }, [])

/-- The repeat-tracking block of the `KeyPress`/`KeyRelease` branch
(source lines 577–594): for a repeatable keycode a press records the key
as held and is flagged as a repeat iff it was already the held key; a
release clears the held slot only when it matches and is never flagged;
a non-repeatable keycode leaves the held slot unchanged and is never
flagged. Returns the new held slot and the repeat flag. -/
def keyRepeatStep (keyRepeats : Nat → Bool) (held : Option Nat)
    (keycode : Nat) (press : Bool) : Option Nat × Bool :=
  if keyRepeats keycode then
    let isLatestHeld := decide (held = some keycode)
    if press then
      (some keycode, isLatestHeld)
    else
      (if isLatestHeld then none else held, false)
  else
    (held, false)

/-- `is_first_touch` of the source: on `Started`, record the id as first
when no touches are active and increment the count (a `u32`, hence
`% 2 ^ 32`); on `Ended`/`Cancelled`, clear the first slot when it names
this id and decrement the count (`saturating_sub`, hence truncated `Nat`
subtraction). Returns the updated `(first, num)` pair together with
whether this id is now the recorded first touch. -/
def is_first_touch (first : Option Nat) (num : Nat) (id : Nat)
    (phase : TouchPhaseM) : (Option Nat × Nat) × Bool :=
  match phase with
  | TouchPhaseM.started =>
    let first := if num = 0 then some id else first
    let num := (num + 1) % 2 ^ 32
    ((first, num), decide (first = some id))
  | TouchPhaseM.ended | TouchPhaseM.cancelled =>
    let first := if first = some id then none else first
    let num := num - 1
    ((first, num), decide (first = some id))
  | TouchPhaseM.moved => ((first, num), decide (first = some id))

/-- A monitor handle as used by the ConfigureNotify branch: its scale
factor (an opaque value compared only for equality, hence `Nat`) and the
`is_dummy` sentinel flag. -/
structure Monitor where
  sf : Nat
  dummy : Bool
deriving DecidableEq, Repr

/-- `SharedWindowState`: the per-window shared geometry/focus state read
and written by the event processor. Sizes are `u32` pairs, positions
`i32` pairs; `frame_extents` is abstracted to the `(left, top)` offsets
that `inner_pos_to_outer` subtracts. -/
structure WinState where
  size : Option (Nat × Nat) := none
  inner_position : Option (Int × Int) := none
  inner_position_rel_parent : Option (Int × Int) := none
  position : Option (Int × Int) := none
  frame_extents : Option (Int × Int) := none
  dpi_adjusted : Option (Nat × Nat) := none
  last_monitor : Monitor := ⟨1, false⟩
  has_focus : Bool := false
  cursor_pos : Option (Int × Int) := none
deriving DecidableEq, Repr

/-- IME requests arriving on the cross-thread channel
(`ime::ImeRequest`). -/
inductive ImeRequest
  | position (window : Nat) (x y : Int)
  | allow (window : Nat) (allowed : Bool)
deriving DecidableEq, Repr

/-- Semantic events pulled from the IME bridge (`ime::ImeEvent`). -/
inductive ImeEventM
  | enabled
  | start
  | update (text : String) (pos : Option Nat)
  | commit (text : String)
  | imeEnd
  | disabled
deriving DecidableEq, Repr

/-- One scroll axis of a device (`ScrollAxisInfo`): whether it is the
horizontal axis, its increment, and its running position. Axis values
are `f64` in the source, compared and combined arithmetically; they are
embedded as rationals. -/
structure ScrollAxisInfo where
  horizontal : Bool
  increment : Rat
  position : Rat
deriving DecidableEq, Repr

/-- A `Device` registry entry: its scroll axes, indexed by axis
number. -/
structure DeviceRec where
  scroll_axes : List (Nat × ScrollAxisInfo) := []
deriving DecidableEq, Repr

/-- The environment of external collaborators: the DND helpers, the
keymap classification (`KbdState::key_repeats`), the instantaneous
hardware key map (`query_keymap`), the frame-extents heuristic, the
monitor query (a function of the window rectangle), DPI adjustment
(`Window::adjust_for_dpi`), the application's size choice written back
through the `ScaleFactorChanged` inner-size writer, the window-manager
name check of the Xfwm4 workaround, whether an IME context exists
(`wt.ime` is `Some`), and the device-hierarchy query backing
`init_device` (`none` models a failed `DeviceInfo::get`). -/
structure Env where
  dnd : DndEnv
  keyRepeats : Nat → Bool
  queryKeymap : List Nat
  frameExtents : Nat → Int × Int
  monitorFor : Int × Int → Nat × Nat → Monitor
  adjustForDpi : Nat → Nat → Nat × Nat → Nat × Nat
  userResize : Nat × Nat → Nat × Nat
  wmIsXfwm4 : Bool
  imeEnabled : Bool
  deviceInfo : Nat → Option (List (Nat × DeviceRec))

/-- Step 1–2 of the geometry reconciler: update the cached size (a
change sets `resized`); for a synthetic notification update the cached
root-relative inner position (a change sets `moved`), for a real one
update the parent-relative cache instead and, when that changed,
invalidate both the inner-position and frame-extents caches without
treating this as a move. Returns `(state, resized, moved)`. -/
def cnSizeMove (ws : WinState) (newSize : Nat × Nat) (newPos : Int × Int)
    (is_synthetic : Bool) : WinState × Bool × Bool :=
  let sizeStep := maybeChange ws.size newSize
  let ws := { ws with size := sizeStep.1 }
  if is_synthetic then
    let posStep := maybeChange ws.inner_position newPos
    ({ ws with inner_position := posStep.1 }, sizeStep.2, posStep.2)
  else
    let relStep := maybeChange ws.inner_position_rel_parent newPos
    let ws := { ws with inner_position_rel_parent := relStep.1 }
    let ws :=
      if relStep.2 then { ws with inner_position := none, frame_extents := none }
      else ws
    (ws, sizeStep.2, false)

/-- Step 3 of the geometry reconciler: reuse the cached outer position
unless a move was just detected or no outer position is cached, in which
case recompute it through the (cached or freshly queried) frame extents,
cache it, and emit `Moved` when a move was detected. The inner-to-outer
conversion is modelled from the spec ("convert client area position to
window position"), `inner_pos_to_outer` living outside `src/`:
`outer = inner - (left, top)`. -/
def cnOuterPos (env : Env) (xwindow : Nat) (ws : WinState)
    (newPos : Int × Int) (moved : Bool) : WinState × (Int × Int) × List Out :=
  match ws.position, moved with
  | some position, false => (ws, position, [])
  | _, _ =>
    let feStep :=
      match ws.frame_extents with
      | some fe => (fe, ws)
      | none =>
        let fe := env.frameExtents xwindow
        (fe, { ws with frame_extents := some fe })
    let fe := feStep.1
    let ws := feStep.2
    let outer : Int × Int := (newPos.1 - fe.1, newPos.2 - fe.2)
    let ws := { ws with position := some outer }
    let outs := if moved then [Out.moved xwindow outer.1 outer.2] else []
    (ws, outer, outs)

/-- Step 4 of the geometry reconciler (synthetic notifications only):
query the monitor under the window rectangle (ignoring dummy handles,
otherwise caching it in `last_monitor`); if the scale factor changed,
emit `ScaleFactorChanged`, let the application adjust the proposed
DPI-adjusted size, and — if its choice differs from the observed size —
issue a resize request, record it as pending `dpi_adjusted`, and force
`resized`. Returns `(state, resized, outputs)`. -/
def cnScale (env : Env) (xwindow : Nat) (ws : WinState)
    (newOuter : Int × Int) (newSize : Nat × Nat) (eventSize : Nat × Nat)
    (resized : Bool) (is_synthetic : Bool) : WinState × Bool × List Out :=
  if is_synthetic then
    let wh := ws.dpi_adjusted.getD eventSize
    let last_scale_factor := ws.last_monitor.sf
    let monitor := env.monitorFor newOuter newSize
    let monStep :=
      if monitor.dummy then (ws, last_scale_factor)
      else ({ ws with last_monitor := monitor }, monitor.sf)
    let ws := monStep.1
    let new_scale_factor := monStep.2
    if last_scale_factor ≠ new_scale_factor then
      let proposed := env.adjustForDpi last_scale_factor new_scale_factor wh
      let old_inner_size := wh
      let chosen := env.userResize proposed
      let sfcOut := Out.scaleFactorChanged xwindow new_scale_factor
      if chosen ≠ old_inner_size then
        ({ ws with dpi_adjusted := some chosen }, true,
          [sfcOut, Out.requestInnerSize xwindow chosen.1 chosen.2])
      else
        (ws, resized, [sfcOut])
    else
      (ws, resized, [])
  else
    (ws, resized, [])

/-- Step 5 of the geometry reconciler: if a DPI-adjusted size is pending
and the observed size does not match it while the window manager is
Xfwm4, re-issue the resize request; otherwise clear the pending marker. -/
def cnHack (env : Env) (xwindow : Nat) (ws : WinState)
    (eventSize : Nat × Nat) : WinState × List Out :=
  match ws.dpi_adjusted with
  | some adjusted_size =>
    if eventSize = adjusted_size ∨ ¬env.wmIsXfwm4 then
      ({ ws with dpi_adjusted := none }, [])
    else
      (ws, [Out.requestInnerSize xwindow adjusted_size.1 adjusted_size.2])
  | none => (ws, [])

/-- The `ConfigureNotify` branch for a live window: steps 1–5 above, then
emit `Resized` iff step 1 or step 4 set the flag. Output order matches
the source: `Moved`, then `ScaleFactorChanged` and its resize request,
then the workaround request, then `Resized`. -/
def processConfigureNotify (env : Env) (xwindow : Nat) (ws : WinState)
    (w h : Nat) (x y : Int) (is_synthetic : Bool) : WinState × List Out :=
  let newSize : Nat × Nat := (w, h)
  let newPos : Int × Int := (x, y)
  let step1 := cnSizeMove ws newSize newPos is_synthetic
  let step2 := cnOuterPos env xwindow step1.1 newPos step1.2.2
  let step3 := cnScale env xwindow step2.1 step2.2.1 newSize newSize step1.2.1 is_synthetic
  let step4 := cnHack env xwindow step3.1 newSize
  let resizedOuts := if step3.2.1 then [Out.resized xwindow w h] else []
  (step4.1, step2.2.2 ++ step3.2.2 ++ step4.2 ++ resizedOuts)

/-- Kinds of XInput touch events seen by the dispatcher. -/
inductive TouchKind
  | begin
  | update
  | endTouch
deriving DecidableEq, Repr

/-- The `TouchPhase` the dispatcher assigns to each touch event kind. -/
def TouchKind.phase : TouchKind → TouchPhaseM
  | TouchKind.begin => TouchPhaseM.started
  | TouchKind.update => TouchPhaseM.moved
  | TouchKind.endTouch => TouchPhaseM.ended

/-- The decoded events routed by `process_event`, restricted to the
branches this development reasons about — in particular every branch
containing an early `return` is present (key events, buttons, motion,
focus-out, raw keys). The DND client messages are split by their
message-type atom (the source dispatches on atom equality); motion
events carry their cursor position (raw fixed-point coordinates as
`Int`) and the decoded valuator list (axis, value); `ignored` stands for
the final catch-all branch, which emits nothing and never returns
early. -/
inductive XEvent
  | xdndEnter (window data0 flags d2 d3 d4 : Nat)
  | xdndPosition (window data0 data3 : Nat)
  | xdndDrop (window data0 : Nat)
  | xdndLeave (window : Nat)
  | selectionNotify (requestor : Nat) (isXdndSelection : Bool)
  | configureNotify (window w h : Nat) (x y : Int) (synthetic : Bool)
  | keyEvent (press : Bool) (keycode : Nat)
  | xinputButton (press : Bool) (window deviceid : Nat)
      (pointerEmulated : Bool) (detail : Nat)
  | xinputMotion (window deviceid sourceid : Nat) (ex ey : Int)
      (valuators : List (Nat × Rat))
  | xinputFocusOut (window : Nat)
  | xinputTouch (kind : TouchKind) (window deviceid : Nat) (x y : Int) (detail : Nat)
  | xinputRawKey (press : Bool) (sourceid keycode : Nat)
  | xinputHierarchy (infos : List HierarchyInfo)
  | ignored
deriving DecidableEq, Repr

/-- The mutable fields of `EventProcessor` (plus the window registry it
reaches through the event-loop target): the DND session, the device
registry (ids only; the per-device scroll-axis payload is used only by
branches outside this development), touch bookkeeping, key-repeat
bookkeeping, the active window, the composing flag, the cross-thread IME
request channel and the IME bridge's pending event queue (both modelled
as drained-in-order lists), and the live windows with their shared
state. -/
structure State where
  dnd : DndRec := {}
  devices : List (Nat × DeviceRec) := []
  numTouch : Nat := 0
  heldKeyPress : Option Nat := none
  firstTouch : Option Nat := none
  activeWindow : Option Nat := none
  isComposing : Bool := false
  imeRequests : List ImeRequest := []
  imeEvents : List (Nat × ImeEventM) := []
  windows : List (Nat × WinState) := []

/-- Replace the shared state of window `w` in the registry. -/
def updateWindow (windows : List (Nat × WinState)) (w : Nat) (v : WinState) :
    List (Nat × WinState) :=
  windows.map fun p => if p.1 = w then (p.1, v) else p

/-- Insert a device entry into the registry (a keyed map: inserting an
existing id replaces its entry). -/
def insertDevice (devices : List (Nat × DeviceRec)) (i : Nat) (d : DeviceRec) :
    List (Nat × DeviceRec) :=
  if (devices.lookup i).isSome then
    devices.map fun p => if p.1 = i then (i, d) else p
  else
    devices ++ [(i, d)]

/-- `EventProcessor::init_device`: query the device hierarchy and
(re)insert an entry per reported device; a failed query inserts
nothing. -/
def initDevice (env : Env) (devices : List (Nat × DeviceRec)) (device : Nat) :
    List (Nat × DeviceRec) :=
  match env.deviceInfo device with
  | some infos => infos.foldl (fun ds p => insertDevice ds p.1 p.2) devices
  | none => devices

/-- `EventProcessor::handle_pressed_keys`: one synthetic key event per
keycode of the instantaneous hardware key map, filtered to valid
keycodes (`>= KEYCODE_OFFSET`), with the given element state and
`repeat = false`. -/
def handlePressedKeys (queryKeymap : List Nat) (window : Nat) (press : Bool) :
    List Out :=
  (queryKeymap.filter fun k => KEYCODE_OFFSET ≤ k).map fun k =>
    Out.keyboardInput window k press false true

/-- The valuator loop of the `XinputMotion` branch: for each decoded
axis/value pair, a known scroll axis of the source device yields a
`MouseWheel` line delta — `(x - position) / increment`, negated since
X11 scroll coordinates are opposite to winit's, placed on the horizontal
or vertical component by the axis kind (the source also tags these with
phase `Moved`) — and updates the axis's running position; any other axis
yields an `AxisMotion` event. The events are collected and delivered
after the loop, in axis order. -/
def motionValuators (window deviceid : Nat) (dev : DeviceRec)
    (valuators : List (Nat × Rat)) : DeviceRec × List Out :=
  valuators.foldl
    (fun acc av =>
      match acc.1.scroll_axes.lookup av.1 with
      | some info =>
        let delta := (av.2 - info.position) / info.increment
        let dev :=
          { acc.1 with
            scroll_axes := acc.1.scroll_axes.map fun p =>
              if p.1 = av.1 then (p.1, { p.2 with position := av.2 }) else p }
        (dev,
          acc.2 ++
            [if info.horizontal then Out.mouseWheel window deviceid (-delta) 0
              else Out.mouseWheel window deviceid 0 (-delta)])
      | none => (acc.1, acc.2 ++ [Out.axisMotion window deviceid av.1 av.2]))
    (dev, [])

/-- One fold step of the `XinputHierarchy` branch over the info
entries: an entry whose flags contain both master bits re-initializes
the registry and emits `Added`; otherwise an entry whose flags contain
both slave bits emits `Removed` and then deletes the registry entry;
any other entry is ignored. -/
def hierStep (env : Env) (acc : List (Nat × DeviceRec) × List Out)
    (info : HierarchyInfo) : List (Nat × DeviceRec) × List Out :=
  if hierContains info.flags (MASTER_ADDED ||| MASTER_REMOVED) then
    (initDevice env acc.1 info.deviceid, acc.2 ++ [Out.deviceAdded info.deviceid])
  else if hierContains info.flags (SLAVE_ADDED ||| SLAVE_REMOVED) then
    (acc.1.filter fun p => p.1 ≠ info.deviceid,
      acc.2 ++ [Out.deviceRemoved info.deviceid])
  else
    acc

/-- The routing match of `process_event`: consume one decoded event,
mutate the state, and produce the ordered outputs of the taken branch.
The final `Bool` is `false` exactly when the branch executes an early
`return`, skipping the trailing IME step. -/
def routeEvent (env : Env) (s : State) (e : XEvent) : State × List Out × Bool :=
  match e with
  | XEvent.xdndEnter window data0 flags d2 d3 d4 =>
    let _ := window
    ({ s with dnd := processXdndEnter env.dnd s.dnd data0 flags d2 d3 d4 }, [], true)
  | XEvent.xdndPosition window data0 data3 =>
    let r := processXdndPosition env.dnd s.dnd window data0 data3
    ({ s with dnd := r.1 }, r.2, true)
  | XEvent.xdndDrop window data0 =>
    let r := processXdndDrop s.dnd window data0
    ({ s with dnd := r.1 }, r.2, true)
  | XEvent.xdndLeave window =>
    let r := processXdndLeave s.dnd window
    ({ s with dnd := r.1 }, r.2, true)
  | XEvent.selectionNotify requestor isXdndSelection =>
    if isXdndSelection then
      let r := processSelectionNotify env.dnd s.dnd requestor
      ({ s with dnd := r.1 }, r.2, true)
    else
      (s, [], true)
  | XEvent.configureNotify window w h x y synthetic =>
    match s.windows.lookup window with
    | some ws =>
      let r := processConfigureNotify env window ws w h x y synthetic
      ({ s with windows := updateWindow s.windows window r.1 }, r.2, true)
    | none => (s, [], true)
  | XEvent.keyEvent press keycode =>
    match s.activeWindow with
    | none => (s, [], false)
    | some window =>
      let r := keyRepeatStep env.keyRepeats s.heldKeyPress keycode press
      let s := { s with heldKeyPress := r.1 }
      let outs :=
        if keycode ≠ 0 ∧ ¬s.isComposing then
          [Out.keyboardInput window keycode press r.2 false]
        else []
      (s, outs, true)
  | XEvent.xinputButton press window deviceid pointerEmulated detail =>
    if pointerEmulated then
      (s, [], false)
    else
      let outs :=
        match detail with
        | 1 => [Out.mouseInput window deviceid press MouseButton.left]
        | 2 => [Out.mouseInput window deviceid press MouseButton.middle]
        | 3 => [Out.mouseInput window deviceid press MouseButton.right]
        -- Emulated scroll-wheel clicks would be forwarded as wheel
        -- events here, but the branch already returned on the
        -- pointer-emulated flag above, so details 4–7 emit nothing.
        | 4 | 5 | 6 | 7 => []
        | 8 => [Out.mouseInput window deviceid press MouseButton.back]
        | 9 => [Out.mouseInput window deviceid press MouseButton.forward]
        | x => [Out.mouseInput window deviceid press (MouseButton.other x)]
      (s, outs, true)
  | XEvent.xinputMotion window deviceid sourceid ex ey valuators =>
    match s.windows.lookup window with
    | none =>
      -- `with_window` finds the window gone, so `cursor_moved.is_none()`
      -- holds and the branch returns before the IME step.
      (s, [], false)
    | some ws =>
      let r := maybeChange ws.cursor_pos (ex, ey)
      let s :=
        { s with
          windows := updateWindow s.windows window { ws with cursor_pos := r.1 } }
      let cursorOuts :=
        if r.2 then [Out.cursorMoved window deviceid ex ey] else []
      match s.devices.lookup sourceid with
      | none =>
        -- Unknown source device: the branch returns before the IME step,
        -- after any cursor event was already delivered.
        (s, cursorOuts, false)
      | some dev =>
        let r2 := motionValuators window deviceid dev valuators
        let s :=
          { s with
            devices := s.devices.map fun p =>
              if p.1 = sourceid then (sourceid, r2.1) else p }
        (s, cursorOuts ++ r2.2, true)
  | XEvent.xinputFocusOut window =>
    if (s.windows.lookup window).isNone then
      (s, [], false)
    else
      -- `active_window.take()` clears the field and yields the old value.
      let oldActive := s.activeWindow
      let s := { s with activeWindow := none }
      if oldActive = some window then
        let keyOuts := handlePressedKeys env.queryKeymap window false
        let s := { s with heldKeyPress := none }
        let s :=
          match s.windows.lookup window with
          | some ws =>
            { s with windows := updateWindow s.windows window { ws with has_focus := false } }
          | none => s
        (s, keyOuts ++ [Out.modifiersChanged window 0, Out.focused window false], true)
      else
        (s, [], true)
  | XEvent.xinputTouch kind window deviceid x y detail =>
    if (s.windows.lookup window).isSome then
      let id := detail
      let phase := kind.phase
      let r := is_first_touch s.firstTouch s.numTouch id phase
      let s := { s with firstTouch := r.1.1, numTouch := r.1.2 }
      let cursorOuts :=
        if r.2 then [Out.cursorMoved window VIRTUAL_CORE_POINTER x y] else []
      (s, cursorOuts ++ [Out.touchEvent window deviceid phase x y id], true)
    else
      (s, [], true)
  | XEvent.xinputRawKey press sourceid keycode =>
    if keycode < KEYCODE_OFFSET then
      (s, [], false)
    else
      (s, [Out.deviceKey sourceid keycode press], true)
  | XEvent.xinputHierarchy infos =>
    let r := infos.foldl (hierStep env) (s.devices, [])
    ({ s with devices := r.1 }, r.2, true)
  | XEvent.ignored => (s, [], true)

/-- The trailing IME step of `process_event` (run only when an IME
context exists): apply at most one pending request from the cross-thread
channel (`try_recv`; spot/allowed application is an effect on the
external IME backend), then poll the bridge for at most one semantic IME
event and translate it, updating `is_composing`. -/
def imeStep (env : Env) (s : State) : State × List Out :=
  if env.imeEnabled then
    let s :=
      match s.imeRequests with
      | [] => s
      | _ :: rest => { s with imeRequests := rest }
    match s.imeEvents with
    | [] => (s, [])
    | (window, ev) :: rest =>
      let s := { s with imeEvents := rest }
      match ev with
      | ImeEventM.enabled => (s, [Out.imeEnabledEvent window])
      | ImeEventM.start =>
        ({ s with isComposing := true }, [Out.imePreedit window "" none])
      | ImeEventM.update text pos =>
        if s.isComposing then (s, [Out.imePreedit window text pos]) else (s, [])
      | ImeEventM.commit text =>
        ({ s with isComposing := false },
          [Out.imePreedit window "" none, Out.imeCommit window text])
      | ImeEventM.imeEnd =>
        ({ s with isComposing := false }, [Out.imePreedit window "" none])
      | ImeEventM.disabled =>
        ({ s with isComposing := false }, [Out.imeDisabledEvent window])
  else
    (s, [])

/-- `EventProcessor::process_event`: route the event, then — unless the
taken branch returned early — run the trailing IME step and append its
outputs. -/
def processEvent (env : Env) (s : State) (e : XEvent) : State × List Out :=
  match routeEvent env s e with
  | (s1, outs, true) =>
    let r := imeStep env s1
    (r.1, outs ++ r.2)
  | (s1, outs, false) => (s1, outs)

/-- The conditions under which a routing branch executes an early
`return` (enumerated from the source): a key event with no active
window, a pointer-emulated button event, a motion event whose window no
longer exists or whose source device is not in the registry, a focus-out
for a window that no longer exists, and a raw key event with a keycode
below the X11 keycode range. -/
def takesEarlyReturn (s : State) (e : XEvent) : Bool :=
  match e with
  | XEvent.keyEvent _ _ => s.activeWindow.isNone
  | XEvent.xinputButton _ _ _ pointerEmulated _ => pointerEmulated
  | XEvent.xinputMotion window _ sourceid _ _ _ =>
    (s.windows.lookup window).isNone || (s.devices.lookup sourceid).isNone
  | XEvent.xinputFocusOut window => (s.windows.lookup window).isNone
  | XEvent.xinputRawKey _ _ keycode => decide (keycode < KEYCODE_OFFSET)
  | _ => false

/-- Process a list of decoded events in arrival order, keeping the final
state. -/
def runEvents (env : Env) (s : State) (events : List XEvent) : State :=
  events.foldl (fun s e => (processEvent env s e).1) s

/-- Whether an output is a (cooked) keyboard-input semantic event. -/
def Out.isKeyboardInput : Out → Bool
  | Out.keyboardInput _ _ _ _ _ => true
  | _ => false

/-- Whether an output is a `Resized` or `Moved` semantic event. -/
def Out.isResizedOrMoved : Out → Bool
  | Out.resized _ _ _ => true
  | Out.moved _ _ _ => true
  | _ => false

/-- Fold the touch-tracker state over a sequence of `(id, phase)`
contacts. -/
def touchFold (st : Option Nat × Nat) (seq : List (Nat × TouchPhaseM)) :
    Option Nat × Nat :=
  seq.foldl (fun st p => (is_first_touch st.1 st.2 p.1 p.2).1) st

/-- Ids of the contacts active after a touch sequence, starting from the
given active set. -/
def activeAfter (act : List Nat) (seq : List (Nat × TouchPhaseM)) : List Nat :=
  seq.foldl
    (fun act p =>
      match p.2 with
      | TouchPhaseM.started => p.1 :: act
      | TouchPhaseM.ended | TouchPhaseM.cancelled => act.erase p.1
      | TouchPhaseM.moved => act)
    act

/-- Well-formed touch sequences relative to an active set: a contact
starts only while inactive and moves/ends/cancels only while active. -/
def wfTouchSeq (act : List Nat) : List (Nat × TouchPhaseM) → Bool
  | [] => true
  | p :: rest =>
    match p.2 with
    | TouchPhaseM.started => decide (p.1 ∉ act) && wfTouchSeq (p.1 :: act) rest
    | TouchPhaseM.moved => decide (p.1 ∈ act) && wfTouchSeq act rest
    | TouchPhaseM.ended | TouchPhaseM.cancelled =>
      decide (p.1 ∈ act) && wfTouchSeq (act.erase p.1) rest

/-- Run one event while also tracking the last processed key action on
keycode `k`: a key event for `k` is processed (reaches the repeat
bookkeeping) only while some window is active. -/
def trackStep (env : Env) (k : Nat) (p : State × Option Bool) (e : XEvent) :
    State × Option Bool :=
  let last :=
    match e with
    | XEvent.keyEvent press kc =>
      if kc = k ∧ p.1.activeWindow.isSome then some press else p.2
    | _ => p.2
  ((processEvent env p.1 e).1, last)

/-- Fold `trackStep` over a sequence of events, starting with no
recorded key action. -/
def runTrack (env : Env) (k : Nat) (s : State) (events : List XEvent) :
    State × Option Bool :=
  events.foldl (trackStep env k) (s, none)

/-- A concrete DND environment used by witnesses and counterexamples:
the file-list atom is `100`, the out-of-band type query fails, reads and
parses succeed. -/
def dndEnv0 : DndEnv :=
  { textUriList := 100
    getTypeList := fun _ => none
    readData := fun _ => some [1, 2]
    parseData := fun _ => ParseResult.ok [11, 12] }

/-- A concrete environment used by witnesses and counterexamples: every
keycode is repeatable, the hardware key map is empty, geometry queries
are trivial, an IME context exists. -/
def env0 : Env :=
  { dnd := dndEnv0
    keyRepeats := fun _ => true
    queryKeymap := []
    frameExtents := fun _ => (0, 0)
    monitorFor := fun _ _ => ⟨1, false⟩
    adjustForDpi := fun _ _ wh => wh
    userResize := fun wh => wh
    wmIsXfwm4 := false
    imeEnabled := true
    deviceInfo := fun i => some [(i, {})] }

/-- `env0` with three keys reported held by the hardware key map, one of
them below the valid keycode range. -/
def env1 : Env := { env0 with queryKeymap := [3, 9, 10] }

/-- A concrete state with window `1` live and focused. -/
def sActive : State := { activeWindow := some 1, windows := [(1, {})] }

/-- `sActive` while composing. -/
def sCompose : State := { sActive with isComposing := true }

/-- A concrete state with no active window, one pending IME request and
one pending IME bridge event. -/
def sC2 : State :=
  { imeRequests := [ImeRequest.allow 5 true]
    imeEvents := [(5, ImeEventM.start)] }

/-- State after Start(id=7) of the touch scenario. -/
def sTouch1 : State :=
  (processEvent env0 sActive (XEvent.xinputTouch TouchKind.begin 1 6 3 4 7)).1

/-- State after Start(id=7), Start(id=9) of the touch scenario. -/
def sTouch2 : State :=
  (processEvent env0 sTouch1 (XEvent.xinputTouch TouchKind.begin 1 6 5 6 9)).1

/-- State after Start(id=7), Start(id=9), End(id=7) of the touch
scenario. -/
def sTouch3 : State :=
  (processEvent env0 sTouch2 (XEvent.xinputTouch TouchKind.endTouch 1 6 5 6 7)).1

/-- Claim C1, counterexample: after an `XdndEnter` advertising the
file-list type and an accepted `XdndPosition`, an `XdndDrop` processed
with no prior `SelectionNotify` (so no cached result) is replied with
`Finished(Accepted)` — not `Finished(Rejected)` as the claim states —
because the Drop branch keys the status on the cached source window, not
on the cached result. -/
theorem c1_drop_without_selection_notify_is_accepted :
    (processXdndPosition dndEnv0
        (processXdndEnter dndEnv0 {} 77 (5 * 2 ^ 24) 1 2 100) 50 77 999).1.result = none
    ∧ (processXdndDrop
        (processXdndPosition dndEnv0
          (processXdndEnter dndEnv0 {} 77 (5 * 2 ^ 24) 1 2 100) 50 77 999).1 50 77).2
      = [Out.sendFinished 50 77 DndStatus.accepted] :=
  ⟨rfl, rfl⟩

/-- Claim C1 (amended): the `Finished` reply sent by the Drop branch
carries status `Accepted` iff a source window was cached by a prior
accepted Position, independently of whether a `SelectionNotify` result
was cached; and with no cached result no `DroppedFile` event is
emitted. -/
theorem c1_amended_drop_status (dnd : DndRec) (w d0 sw : Nat) (st : DndStatus)
    (hmem : Out.sendFinished w sw st ∈ (processXdndDrop dnd w d0).2) :
    (st = DndStatus.accepted ↔ dnd.source_window ≠ none)
    ∧ (dnd.result = none →
        ∀ p, Out.droppedFile w p ∉ (processXdndDrop dnd w d0).2) := by
  unfold processXdndDrop at hmem ⊢
  cases hsw : dnd.source_window with
  | none =>
    rw [hsw] at hmem
    simp at hmem
    simp [hmem.2, hsw]
  | some src =>
    rw [hsw] at hmem
    cases hres : dnd.result with
    | none =>
      rw [hres] at hmem
      simp at hmem
      simp [hmem.2, hsw, hres]
    | some pr =>
      rw [hres] at hmem
      cases pr with
      | ok paths =>
        simp at hmem
        simp [hmem.2, hsw, hres]
      | err =>
        simp at hmem
        simp [hmem.2, hsw, hres]

/-- Witness for `c1_amended_drop_status` at a concrete drop with a
cached source window and no cached result. -/
theorem c1_amended_drop_status_witness :
    (DndStatus.accepted = DndStatus.accepted ↔
      ({ source_window := some 77 } : DndRec).source_window ≠ none)
    ∧ (({ source_window := some 77 } : DndRec).result = none →
        ∀ p, Out.droppedFile 50 p ∉
          (processXdndDrop { source_window := some 77 } 50 77).2) :=
  c1_amended_drop_status { source_window := some 77 } 50 77 77 DndStatus.accepted
    (by decide)

/-- Claim C2, counterexample: a `KeyPress` processed with no active
window returns before the IME step — the pending IME request stays in
the channel and the pending bridge event is not polled — while the same
state processed under the catch-all branch does run the IME step and
emits the preedit event. -/
theorem c2_key_event_without_active_window_skips_ime_step :
    (processEvent env0 sC2 (XEvent.keyEvent true 10)).2 = []
    ∧ (processEvent env0 sC2 (XEvent.keyEvent true 10)).1.imeRequests
      = [ImeRequest.allow 5 true]
    ∧ (processEvent env0 sC2 (XEvent.keyEvent true 10)).1.imeEvents
      = [(5, ImeEventM.start)]
    ∧ (processEvent env0 sC2 XEvent.ignored).2 = [Out.imePreedit 5 "" none] :=
  ⟨rfl, rfl, rfl, rfl⟩

/-- Claim C2 (amended): the IME step — receive at most one pending IME
request, then poll the bridge for at most one semantic IME event — runs
after routing on every call of `process_event` that does not take an
early return (a key event with no active window, a pointer-emulated
button event, a motion event whose window no longer exists or whose
source device is missing from the registry, a focus-out for a window
that no longer exists, or a raw key event below the keycode offset). -/
theorem c2_amended_ime_step_runs_unless_early_return (env : Env) (s : State)
    (e : XEvent) (h : takesEarlyReturn s e = false) :
    (routeEvent env s e).2.2 = true
    ∧ processEvent env s e =
      ((imeStep env (routeEvent env s e).1).1,
        (routeEvent env s e).2.1 ++ (imeStep env (routeEvent env s e).1).2) := by
  have hcont : (routeEvent env s e).2.2 = true := by
    cases e with
    | xdndEnter w d0 flags d2 d3 d4 => rfl
    | xdndPosition w d0 d3 => rfl
    | xdndDrop w d0 => rfl
    | xdndLeave w => rfl
    | selectionNotify r isX => cases isX <;> simp [routeEvent]
    | configureNotify w ww hh x y syn =>
      simp only [routeEvent]
      cases hl : s.windows.lookup w <;> simp [hl]
    | keyEvent press keycode =>
      simp only [takesEarlyReturn] at h
      cases hw : s.activeWindow
      · simp [hw] at h
      · simp [routeEvent, hw]
    | xinputButton press w d pe detail =>
      simp only [takesEarlyReturn] at h
      subst h
      simp [routeEvent]
    | xinputMotion w did src ex ey vals =>
      simp only [takesEarlyReturn] at h
      cases hl : s.windows.lookup w with
      | none =>
        rw [hl] at h
        simp at h
      | some ws =>
        cases hd : s.devices.lookup src with
        | none =>
          rw [hl, hd] at h
          simp at h
        | some dev =>
          simp [routeEvent, hl, hd]
    | xinputFocusOut w =>
      simp only [takesEarlyReturn] at h
      simp only [routeEvent, h]
      split
      · simp_all
      · split <;> rfl
    | xinputTouch kind w d x y det =>
      simp only [routeEvent]
      cases hl : (s.windows.lookup w).isSome <;> simp [hl]
    | xinputRawKey press src kc =>
      simp only [takesEarlyReturn, decide_eq_false_iff_not] at h
      simp [routeEvent, h]
    | xinputHierarchy infos => rfl
    | ignored => rfl
  refine ⟨hcont, ?_⟩
  unfold processEvent
  rcases hr : routeEvent env s e with ⟨s1, outs, b⟩
  rw [hr] at hcont
  simp only at hcont
  subst hcont
  rfl

/-- Witness for `c2_amended_ime_step_runs_unless_early_return` on a
catch-all event in a state with a pending IME request and a pending
bridge event. -/
theorem c2_amended_ime_step_runs_unless_early_return_witness :
    takesEarlyReturn sC2 XEvent.ignored = false
    ∧ ((routeEvent env0 sC2 XEvent.ignored).2.2 = true
      ∧ processEvent env0 sC2 XEvent.ignored =
        ((imeStep env0 (routeEvent env0 sC2 XEvent.ignored).1).1,
          (routeEvent env0 sC2 XEvent.ignored).2.1
            ++ (imeStep env0 (routeEvent env0 sC2 XEvent.ignored).1).2)) :=
  ⟨rfl, c2_amended_ime_step_runs_unless_early_return env0 sC2 XEvent.ignored rfl⟩

/-- Claim C3 (code bug): an `XinputHierarchy` info entry carrying a
single hierarchy flag is ignored, because the branch tests x11rb
`contains(MASTER_ADDED | MASTER_REMOVED)` (respectively the slave
pair), which requires both bits of the union to be set; a master add
alone therefore triggers neither a registry re-initialization nor an
`Added` event, and a slave add/remove alone triggers no `Removed`
event. Only an entry with both bits of a pair set takes the branch. -/
theorem c3_hierarchy_single_flag_ignored :
    (routeEvent env0 sActive (XEvent.xinputHierarchy [⟨4, MASTER_ADDED⟩])).2.1 = []
    ∧ (routeEvent env0 sActive
        (XEvent.xinputHierarchy [⟨4, MASTER_ADDED⟩])).1.devices = sActive.devices
    ∧ (routeEvent env0 sActive (XEvent.xinputHierarchy [⟨4, MASTER_REMOVED⟩])).2.1 = []
    ∧ (routeEvent env0 sActive (XEvent.xinputHierarchy [⟨4, SLAVE_ADDED⟩])).2.1 = []
    ∧ (routeEvent env0 sActive (XEvent.xinputHierarchy [⟨4, SLAVE_REMOVED⟩])).2.1 = []
    ∧ (routeEvent env0 sActive
        (XEvent.xinputHierarchy [⟨4, MASTER_ADDED ||| MASTER_REMOVED⟩])).2.1
      = [Out.deviceAdded 4] :=
  ⟨rfl, rfl, rfl, rfl, rfl, rfl⟩

/-- The trailing IME step never emits keyboard-input events. -/
theorem imeStep_no_keyboard_input (env : Env) (s : State) :
    ((imeStep env s).2).filter Out.isKeyboardInput = [] := by
  unfold imeStep
  split
  · cases s.imeRequests <;> cases hev : s.imeEvents <;>
      simp [hev] <;> rename_i p _ <;> rcases p with ⟨w, ev⟩ <;>
      cases ev <;> simp [Out.isKeyboardInput]
    all_goals split <;> simp [Out.isKeyboardInput]
  · rfl

/-- Claim C4: a key press or release processed while `is_composing` is
true emits no keyboard-input semantic event. -/
theorem c4_no_keyboard_input_while_composing (env : Env) (s : State)
    (press : Bool) (keycode : Nat) (h : s.isComposing = true) :
    ((processEvent env s (XEvent.keyEvent press keycode)).2).filter
      Out.isKeyboardInput = [] := by
  have houts : (routeEvent env s (XEvent.keyEvent press keycode)).2.1 = [] := by
    unfold routeEvent
    cases s.activeWindow <;> simp [h]
  unfold processEvent
  rcases hr : routeEvent env s (XEvent.keyEvent press keycode) with ⟨s1, outs, b⟩
  rw [hr] at houts
  simp only at houts
  subst houts
  cases b
  · rfl
  · simp only [List.nil_append]
    exact imeStep_no_keyboard_input env s1

/-- Witness for `c4_no_keyboard_input_while_composing` while composing. -/
theorem c4_no_keyboard_input_while_composing_witness :
    ((processEvent env0 sCompose (XEvent.keyEvent true 10)).2).filter
      Out.isKeyboardInput = [] :=
  c4_no_keyboard_input_while_composing env0 sCompose true 10 rfl

/-- Claim C5, counterexample: keycode `10` is repeatable and currently
pressed (`held_key_press = Some 10`), yet processing a focus-out for the
active window — which is not a release of key `10` — clears
`held_key_press`, so the held key is not cleared exactly when that same
key is released. -/
theorem c5_focus_out_clears_held_without_release :
    (runEvents env0 sActive [XEvent.keyEvent true 10]).heldKeyPress = some 10
    ∧ (runEvents env0 sActive
        [XEvent.keyEvent true 10, XEvent.xinputFocusOut 1]).heldKeyPress = none :=
  ⟨rfl, rfl⟩

/-- The trailing IME step never touches the held-key slot. -/
theorem imeStep_heldKeyPress (env : Env) (s : State) :
    (imeStep env s).1.heldKeyPress = s.heldKeyPress := by
  unfold imeStep
  split
  · cases s.imeRequests <;> cases hev : s.imeEvents <;> simp [hev] <;>
      rename_i p _ <;> rcases p with ⟨w, ev⟩ <;> cases ev <;> simp
    all_goals split <;> rfl
  · rfl

/-- The held-key slot after a full `process_event` call is the one left
by the routing branch. -/
theorem processEvent_heldKeyPress (env : Env) (s : State) (e : XEvent) :
    (processEvent env s e).1.heldKeyPress = (routeEvent env s e).1.heldKeyPress := by
  unfold processEvent
  rcases hr : routeEvent env s e with ⟨s1, outs, b⟩
  cases b
  · rfl
  · simpa only using imeStep_heldKeyPress env s1

/-- How each routing branch updates the held-key slot: only a key event
processed while a window is active (through the repeat-tracking block)
and a focus-out for the live active window change it. -/
theorem routeEvent_heldKeyPress (env : Env) (s : State) (e : XEvent) :
    (routeEvent env s e).1.heldKeyPress =
      match e with
      | XEvent.keyEvent press keycode =>
        if s.activeWindow.isSome then
          (keyRepeatStep env.keyRepeats s.heldKeyPress keycode press).1
        else s.heldKeyPress
      | XEvent.xinputFocusOut w =>
        if (s.windows.lookup w).isNone then s.heldKeyPress
        else if s.activeWindow = some w then none else s.heldKeyPress
      | _ => s.heldKeyPress := by
  cases e with
  | keyEvent press keycode =>
    cases hw : s.activeWindow <;> simp [routeEvent, hw]
  | xinputMotion w did src ex ey vals =>
    simp only [routeEvent]
    cases hl : s.windows.lookup w
    · rfl
    · simp only [hl]
      cases hd : s.devices.lookup src <;> simp [hd]
  | xinputFocusOut w =>
    simp only [routeEvent]
    split
    · rename_i hn
      simp [hn]
    · split
      · split <;> rfl
      · rfl
  | selectionNotify r isX => simp only [routeEvent]; split <;> rfl
  | configureNotify w ww hh x y syn => simp only [routeEvent]; split <;> rfl
  | xinputButton press w d pe detail => simp only [routeEvent]; split <;> rfl
  | xinputTouch kind w d x y det => simp only [routeEvent]; split <;> rfl
  | xinputRawKey press src kc => simp only [routeEvent]; split <;> rfl
  | xdndEnter w d0 flags d2 d3 d4 => rfl
  | xdndPosition w d0 d3 => rfl
  | xdndDrop w d0 => rfl
  | xdndLeave w => rfl
  | xinputHierarchy infos => rfl
  | ignored => rfl

/-- One step of the tracked run preserves the held-key invariant: if the
held key is `k`, then `k` is repeatable and the last processed key
action on `k` was a press. -/
theorem trackStep_inv (env : Env) (k : Nat) (p : State × Option Bool) (e : XEvent)
    (hp : p.1.heldKeyPress = some k → env.keyRepeats k = true ∧ p.2 = some true) :
    (trackStep env k p e).1.heldKeyPress = some k →
      env.keyRepeats k = true ∧ (trackStep env k p e).2 = some true := by
  intro hheld
  have hh : (routeEvent env p.1 e).1.heldKeyPress = some k := by
    have hpe := processEvent_heldKeyPress env p.1 e
    simp only [trackStep] at hheld
    rw [hpe] at hheld
    exact hheld
  rw [routeEvent_heldKeyPress] at hh
  simp only [trackStep]
  cases e with
  | keyEvent press kc =>
    simp only at hh
    cases hact : p.1.activeWindow.isSome
    · simp only [hact, Bool.false_eq_true, if_false] at hh
      rcases hp hh with ⟨hrep, hlast⟩
      refine ⟨hrep, ?_⟩
      simp [hact, hlast]
    · simp only [hact, if_true] at hh
      cases hkr : env.keyRepeats kc
      · simp only [keyRepeatStep, hkr, Bool.false_eq_true, if_false] at hh
        rcases hp hh with ⟨hrep, hlast⟩
        have hne : kc ≠ k := fun hEq => by
          rw [hEq, hrep] at hkr
          exact Bool.noConfusion hkr
        refine ⟨hrep, ?_⟩
        simp [hne, hlast]
      · cases press
        · simp only [keyRepeatStep, hkr, if_true, Bool.false_eq_true, if_false] at hh
          by_cases hlat : p.1.heldKeyPress = some kc
          · simp [hlat] at hh
          · simp [hlat] at hh
            rcases hp hh with ⟨hrep, hlast⟩
            have hne : kc ≠ k := fun hEq => hlat (by rw [hEq]; exact hh)
            refine ⟨hrep, ?_⟩
            simp [hne, hlast]
        · simp only [keyRepeatStep, hkr, if_true] at hh
          have hkck : kc = k := Option.some.inj hh
          subst hkck
          exact ⟨hkr, by simp [hact]⟩
  | xinputFocusOut w =>
    simp only at hh
    have hph : p.1.heldKeyPress = some k := by
      by_cases h1 : (p.1.windows.lookup w).isNone
      · simpa [h1] using hh
      · by_cases h2 : p.1.activeWindow = some w
        · simp [h1, h2] at hh
        · simpa [h1, h2] using hh
    rcases hp hph with ⟨hrep, hlast⟩
    exact ⟨hrep, hlast⟩
  | selectionNotify r isX => exact hp hh
  | configureNotify w ww hh2 x y syn => exact hp hh
  | xinputButton press w d pe detail => exact hp hh
  | xinputMotion w did src ex ey vals => exact hp hh
  | xinputTouch kind w d x y det => exact hp hh
  | xinputRawKey press src kc => exact hp hh
  | xdndEnter w d0 flags d2 d3 d4 => exact hp hh
  | xdndPosition w d0 d3 => exact hp hh
  | xdndDrop w d0 => exact hp hh
  | xdndLeave w => exact hp hh
  | xinputHierarchy infos => exact hp hh
  | ignored => exact hp hh

/-- The held-key invariant holds after any tracked run. -/
theorem runTrack_inv (env : Env) (k : Nat) (events : List XEvent) :
    ∀ p : State × Option Bool,
      (p.1.heldKeyPress = some k → env.keyRepeats k = true ∧ p.2 = some true) →
      ((events.foldl (trackStep env k) p).1.heldKeyPress = some k →
        env.keyRepeats k = true
        ∧ (events.foldl (trackStep env k) p).2 = some true) := by
  induction events with
  | nil => intro p hp; exact hp
  | cons e rest ih =>
    intro p hp
    simp only [List.foldl_cons]
    exact ih (trackStep env k p e) (trackStep_inv env k p e hp)

/-- A tracked run drives the state exactly as the plain run does. -/
theorem runTrack_fst (env : Env) (k : Nat) (events : List XEvent) :
    ∀ p : State × Option Bool,
      (events.foldl (trackStep env k) p).1 = runEvents env p.1 events := by
  induction events with
  | nil => intro p; rfl
  | cons e rest ih =>
    intro p
    simp only [List.foldl_cons, runEvents]
    exact ih (trackStep env k p e)

/-- Claim C5 (amended): starting with no held key, `held_key_press` is
`Some k` only while `k` is repeatable and the last processed key action
on `k` was a press (so `k` is currently pressed); releasing any key
other than `k` never clears it; and it transitions to `None` only on a
release of `k` itself or on a focus-out (which also clears it). -/
theorem c5_amended_held_key_invariant (env : Env) (s0 : State)
    (events : List XEvent) (k : Nat) (hinit : s0.heldKeyPress = none) :
    ((runTrack env k s0 events).1.heldKeyPress = some k →
      env.keyRepeats k = true ∧ (runTrack env k s0 events).2 = some true)
    ∧ (∀ s j, s.heldKeyPress = some k → j ≠ k →
        (processEvent env s (XEvent.keyEvent false j)).1.heldKeyPress = some k)
    ∧ (∀ s e, s.heldKeyPress = some k →
        (processEvent env s e).1.heldKeyPress = none →
        e = XEvent.keyEvent false k ∨ ∃ w, e = XEvent.xinputFocusOut w)
    ∧ (runTrack env k s0 events).1 = runEvents env s0 events := by
  refine ⟨?_, ?_, ?_, runTrack_fst env k events (s0, none)⟩
  · exact runTrack_inv env k events (s0, none)
      (fun hc => by rw [hinit] at hc; exact Option.noConfusion hc)
  · intro s j hheld hne
    rw [processEvent_heldKeyPress, routeEvent_heldKeyPress]
    simp only
    have hkj : ¬k = j := fun hEq => hne hEq.symm
    cases hact : s.activeWindow.isSome
    · simp [hact, hheld]
    · cases hkr : env.keyRepeats j <;>
        simp [hact, keyRepeatStep, hkr, hheld, hkj]
  · intro s e hheld hnone
    rw [processEvent_heldKeyPress, routeEvent_heldKeyPress] at hnone
    cases e with
    | keyEvent press kc =>
      simp only at hnone
      cases hact : s.activeWindow.isSome
      · simp only [hact, Bool.false_eq_true, if_false] at hnone
        rw [hheld] at hnone
        exact Option.noConfusion hnone
      · simp only [hact, if_true] at hnone
        cases hkr : env.keyRepeats kc
        · simp only [keyRepeatStep, hkr, Bool.false_eq_true, if_false] at hnone
          rw [hheld] at hnone
          exact Option.noConfusion hnone
        · cases press
          · simp only [keyRepeatStep, hkr, if_true, Bool.false_eq_true,
              if_false] at hnone
            by_cases hlat : s.heldKeyPress = some kc
            · have hkk : kc = k := by
                rw [hheld] at hlat
                exact (Option.some.inj hlat).symm
              subst hkk
              exact Or.inl rfl
            · simp [hlat] at hnone
              rw [hheld] at hnone
              exact Option.noConfusion hnone
          · simp only [keyRepeatStep, hkr, if_true] at hnone
            exact Option.noConfusion hnone
    | xinputFocusOut w => exact Or.inr ⟨w, rfl⟩
    | selectionNotify r isX =>
      rw [hheld] at hnone; exact Option.noConfusion hnone
    | configureNotify w ww hh2 x y syn =>
      rw [hheld] at hnone; exact Option.noConfusion hnone
    | xinputButton press w d pe detail =>
      rw [hheld] at hnone; exact Option.noConfusion hnone
    | xinputMotion w did src ex ey vals =>
      rw [hheld] at hnone; exact Option.noConfusion hnone
    | xinputTouch kind w d x y det =>
      rw [hheld] at hnone; exact Option.noConfusion hnone
    | xinputRawKey press src kc =>
      rw [hheld] at hnone; exact Option.noConfusion hnone
    | xdndEnter w d0 flags d2 d3 d4 =>
      rw [hheld] at hnone; exact Option.noConfusion hnone
    | xdndPosition w d0 d3 =>
      rw [hheld] at hnone; exact Option.noConfusion hnone
    | xdndDrop w d0 =>
      rw [hheld] at hnone; exact Option.noConfusion hnone
    | xdndLeave w =>
      rw [hheld] at hnone; exact Option.noConfusion hnone
    | xinputHierarchy infos =>
      rw [hheld] at hnone; exact Option.noConfusion hnone
    | ignored =>
      rw [hheld] at hnone; exact Option.noConfusion hnone

/-- Witness for `c5_amended_held_key_invariant` after one repeatable
press. -/
theorem c5_amended_held_key_invariant_witness :
    sActive.heldKeyPress = none
    ∧ ((runTrack env0 10 sActive [XEvent.keyEvent true 10]).1.heldKeyPress = some 10 →
        env0.keyRepeats 10 = true
        ∧ (runTrack env0 10 sActive [XEvent.keyEvent true 10]).2 = some true) :=
  ⟨rfl, (c5_amended_held_key_invariant env0 sActive [XEvent.keyEvent true 10] 10 rfl).1⟩

/-- Claim C6: for a repeat-eligible keycode, a press is flagged
`repeat = true` iff that keycode was already the held key; a release is
never flagged as a repeat; and a non-repeatable keycode never modifies
the held-key slot. -/
theorem c6_repeat_flag_iff_already_held (keyRepeats : Nat → Bool)
    (held : Option Nat) (k : Nat) :
    (keyRepeats k = true →
      (((keyRepeatStep keyRepeats held k true).2 = true) ↔ held = some k))
    ∧ (keyRepeatStep keyRepeats held k false).2 = false
    ∧ (keyRepeats k = false →
        ∀ press, (keyRepeatStep keyRepeats held k press).1 = held) := by
  refine ⟨fun h => ?_, ?_, fun h press => ?_⟩
  · simp [keyRepeatStep, h]
  · cases hk : keyRepeats k <;> simp [keyRepeatStep, hk]
  · simp [keyRepeatStep, h]

/-- Witness for `c6_repeat_flag_iff_already_held` with every key
repeatable and key `5` already held. -/
theorem c6_repeat_flag_iff_already_held_witness :
    ((keyRepeatStep (fun _ => true) (some 5) 5 true).2 = true)
      ↔ (some 5 : Option Nat) = some 5 :=
  (c6_repeat_flag_iff_already_held (fun _ => true) (some 5) 5).1 rfl

/-- Claim C10: a raw key event whose keycode lies below the X11 keycode
offset is silently dropped before translation — no event is emitted and
the state is unchanged. -/
theorem c10_raw_key_below_offset_dropped (env : Env) (s : State) (press : Bool)
    (sourceid keycode : Nat) (h : keycode < KEYCODE_OFFSET) :
    processEvent env s (XEvent.xinputRawKey press sourceid keycode) = (s, []) := by
  unfold processEvent
  simp only [routeEvent]
  rw [if_pos h]

/-- After any well-formed touch sequence the recorded first touch is an
active contact, generalized over the starting active set and tracker
state. -/
theorem touch_first_active_aux (seq : List (Nat × TouchPhaseM)) :
    ∀ act first num, (∀ j, first = some j → j ∈ act) →
      wfTouchSeq act seq = true →
      ∀ j, (touchFold (first, num) seq).1 = some j → j ∈ activeAfter act seq := by
  induction seq with
  | nil =>
    intro act first num hinv _ j hj
    simp only [touchFold, List.foldl_nil] at hj
    simpa only [activeAfter, List.foldl_nil] using hinv j hj
  | cons p rest ih =>
    obtain ⟨id, ph⟩ := p
    intro act first num hinv hwf j hj
    simp only [touchFold, List.foldl_cons] at hj
    simp only [activeAfter, List.foldl_cons]
    cases ph with
    | started =>
      simp only [wfTouchSeq, Bool.and_eq_true, decide_eq_true_eq] at hwf
      refine ih (id :: act) _ _ ?_ hwf.2 j hj
      intro j2 hj2
      by_cases hz : num = 0
      · simp [is_first_touch, hz] at hj2
        simp [hj2]
      · simp [is_first_touch, hz] at hj2
        exact List.mem_cons_of_mem _ (hinv j2 hj2)
    | moved =>
      simp only [wfTouchSeq, Bool.and_eq_true, decide_eq_true_eq] at hwf
      exact ih act _ _ (by simpa [is_first_touch] using hinv) hwf.2 j hj
    | ended =>
      simp only [wfTouchSeq, Bool.and_eq_true, decide_eq_true_eq] at hwf
      refine ih (act.erase id) _ _ ?_ hwf.2 j hj
      intro j2 hj2
      by_cases hfid : first = some id
      · simp [is_first_touch, hfid] at hj2
      · simp [is_first_touch, hfid] at hj2
        have hne : j2 ≠ id := fun hEq => hfid (hEq ▸ hj2)
        exact (List.mem_erase_of_ne hne).mpr (hinv j2 hj2)
    | cancelled =>
      simp only [wfTouchSeq, Bool.and_eq_true, decide_eq_true_eq] at hwf
      refine ih (act.erase id) _ _ ?_ hwf.2 j hj
      intro j2 hj2
      by_cases hfid : first = some id
      · simp [is_first_touch, hfid] at hj2
      · simp [is_first_touch, hfid] at hj2
        have hne : j2 ≠ id := fun hEq => hfid (hEq ▸ hj2)
        exact (List.mem_erase_of_ne hne).mpr (hinv j2 hj2)

/-- Claim C7: the touch-count decrement saturates at zero; after any
well-formed touch sequence `first_touch` names only an active contact;
and in the Start(7), Start(9), End(7) scenario only the first concurrent
contact synthesizes a cursor move: Start(7) at count zero records it and
emits a cursor move, Start(9) emits no cursor move and leaves the first
touch unchanged, End(7) clears the first touch and decrements the
count. -/
theorem c7_touch_tracker (seq : List (Nat × TouchPhaseM)) (id : Nat)
    (hwf : wfTouchSeq [] seq = true) :
    ((touchFold (none, 0) seq).1 = some id → id ∈ activeAfter [] seq)
    ∧ (∀ first i, (is_first_touch first 0 i TouchPhaseM.ended).1.2 = 0
        ∧ (is_first_touch first 0 i TouchPhaseM.cancelled).1.2 = 0)
    ∧ (routeEvent env0 sActive (XEvent.xinputTouch TouchKind.begin 1 6 3 4 7)).2.1
      = [Out.cursorMoved 1 VIRTUAL_CORE_POINTER 3 4,
         Out.touchEvent 1 6 TouchPhaseM.started 3 4 7]
    ∧ sTouch1.firstTouch = some 7 ∧ sTouch1.numTouch = 1
    ∧ (routeEvent env0 sTouch1 (XEvent.xinputTouch TouchKind.begin 1 6 5 6 9)).2.1
      = [Out.touchEvent 1 6 TouchPhaseM.started 5 6 9]
    ∧ sTouch2.firstTouch = some 7 ∧ sTouch2.numTouch = 2
    ∧ (routeEvent env0 sTouch2 (XEvent.xinputTouch TouchKind.endTouch 1 6 5 6 7)).2.1
      = [Out.touchEvent 1 6 TouchPhaseM.ended 5 6 7]
    ∧ sTouch3.firstTouch = none ∧ sTouch3.numTouch = 1 := by
  refine ⟨fun hj => touch_first_active_aux seq [] none 0 (by simp) hwf id hj,
    fun first i => ⟨?_, ?_⟩, rfl, rfl, rfl, rfl, rfl, rfl, rfl, rfl, rfl⟩
  · simp [is_first_touch]
  · simp [is_first_touch]

/-- Witness for `c7_touch_tracker` on the one-contact sequence. -/
theorem c7_touch_tracker_witness :
    wfTouchSeq [] [(7, TouchPhaseM.started)] = true
    ∧ ((touchFold (none, 0) [(7, TouchPhaseM.started)]).1 = some 7 →
        7 ∈ activeAfter [] [(7, TouchPhaseM.started)]) :=
  ⟨rfl, (c7_touch_tracker [(7, TouchPhaseM.started)] 7 rfl).1⟩

/-- Claim C8: processing a focus-out for the active window while
composing emits the synthetic key releases for the held keys (the
hardware key map filtered to valid keycodes), then one modifiers-cleared
event, then one `Focused(false)` event, in that order; the full
`process_event` call appends only the trailing IME-step outputs after
them. -/
theorem c8_focus_out_while_composing_order (env : Env) (s : State) (w : Nat)
    (ws : WinState) (hwin : s.windows.lookup w = some ws)
    (hact : s.activeWindow = some w) (hcomp : s.isComposing = true) :
    (routeEvent env s (XEvent.xinputFocusOut w)).2.1 =
      ((env.queryKeymap.filter fun k => KEYCODE_OFFSET ≤ k).map fun k =>
        Out.keyboardInput w k false false true)
      ++ [Out.modifiersChanged w 0, Out.focused w false]
    ∧ ∃ imeOuts, (processEvent env s (XEvent.xinputFocusOut w)).2 =
        (((env.queryKeymap.filter fun k => KEYCODE_OFFSET ≤ k).map fun k =>
          Out.keyboardInput w k false false true)
        ++ [Out.modifiersChanged w 0, Out.focused w false]) ++ imeOuts := by
  have hc := hcomp
  clear hc
  have h1 : (routeEvent env s (XEvent.xinputFocusOut w)).2.1 =
      ((env.queryKeymap.filter fun k => KEYCODE_OFFSET ≤ k).map fun k =>
        Out.keyboardInput w k false false true)
      ++ [Out.modifiersChanged w 0, Out.focused w false] := by
    simp [routeEvent, hwin, hact, handlePressedKeys]
  have h2 : (routeEvent env s (XEvent.xinputFocusOut w)).2.2 = true := by
    simp [routeEvent, hwin, hact]
  refine ⟨h1, (imeStep env (routeEvent env s (XEvent.xinputFocusOut w)).1).2, ?_⟩
  unfold processEvent
  rcases hr : routeEvent env s (XEvent.xinputFocusOut w) with ⟨s1, outs, b⟩
  rw [hr] at h1 h2
  simp only at h1 h2
  subst h2
  simp only
  rw [h1]

/-- Witness for `c8_focus_out_while_composing_order` with three held
keys, one below the valid range. -/
theorem c8_focus_out_while_composing_order_witness :
    (routeEvent env1 sCompose (XEvent.xinputFocusOut 1)).2.1 =
      ((env1.queryKeymap.filter fun k => KEYCODE_OFFSET ≤ k).map fun k =>
        Out.keyboardInput 1 k false false true)
      ++ [Out.modifiersChanged 1 0, Out.focused 1 false]
    ∧ ∃ imeOuts, (processEvent env1 sCompose (XEvent.xinputFocusOut 1)).2 =
        (((env1.queryKeymap.filter fun k => KEYCODE_OFFSET ≤ k).map fun k =>
          Out.keyboardInput 1 k false false true)
        ++ [Out.modifiersChanged 1 0, Out.focused 1 false]) ++ imeOuts :=
  c8_focus_out_while_composing_order env1 sCompose 1 {} rfl rfl rfl

/-- `maybe_change` always stores the new value. -/
theorem maybeChange_fst {α : Type} [DecidableEq α] (field : Option α) (v : α) :
    (maybeChange field v).1 = some v := by
  unfold maybeChange
  split <;> rfl

/-- `maybe_change` reports no change when the cache already holds the
value. -/
theorem maybeChange_same {α : Type} [DecidableEq α] (v : α) :
    (maybeChange (some v) v).2 = false := by
  simp [maybeChange]

/-- Step 1–2 cache the new size. -/
theorem cnSizeMove_size (ws : WinState) (ns : Nat × Nat) (np : Int × Int)
    (syn : Bool) : (cnSizeMove ws ns np syn).1.size = some ns := by
  cases syn
  · simp only [cnSizeMove, Bool.false_eq_true, if_false]
    split <;> simp [maybeChange_fst]
  · simp [cnSizeMove, maybeChange_fst]

/-- Step 1–2 cache the new inner position on a synthetic notification. -/
theorem cnSizeMove_inner (ws : WinState) (ns : Nat × Nat) (np : Int × Int) :
    (cnSizeMove ws ns np true).1.inner_position = some np := by
  simp [cnSizeMove, maybeChange_fst]

/-- Step 1–2 cache the new parent-relative position on a real
notification. -/
theorem cnSizeMove_rel (ws : WinState) (ns : Nat × Nat) (np : Int × Int) :
    (cnSizeMove ws ns np false).1.inner_position_rel_parent = some np := by
  simp only [cnSizeMove, Bool.false_eq_true, if_false]
  split <;> simp [maybeChange_fst]

/-- Step 1–2 leave the outer-position cache untouched. -/
theorem cnSizeMove_position (ws : WinState) (ns : Nat × Nat) (np : Int × Int)
    (syn : Bool) : (cnSizeMove ws ns np syn).1.position = ws.position := by
  cases syn
  · simp only [cnSizeMove, Bool.false_eq_true, if_false]
    split <;> rfl
  · simp [cnSizeMove]

/-- Step 1–2 leave the cached monitor untouched. -/
theorem cnSizeMove_monitor (ws : WinState) (ns : Nat × Nat) (np : Int × Int)
    (syn : Bool) : (cnSizeMove ws ns np syn).1.last_monitor = ws.last_monitor := by
  cases syn
  · simp only [cnSizeMove, Bool.false_eq_true, if_false]
    split <;> rfl
  · simp [cnSizeMove]

/-- Step 1–2 report no resize and no move when every cache already holds
the notified values. -/
theorem cnSizeMove_flags (ws : WinState) (ns : Nat × Nat) (np : Int × Int)
    (syn : Bool) (hsz : ws.size = some ns)
    (hip : syn = true → ws.inner_position = some np)
    (hrp : syn = false → ws.inner_position_rel_parent = some np) :
    (cnSizeMove ws ns np syn).2.1 = false ∧ (cnSizeMove ws ns np syn).2.2 = false := by
  cases syn
  · refine ⟨?_, rfl⟩
    simp [cnSizeMove, hsz, maybeChange_same]
  · constructor
    · simp [cnSizeMove, hsz, maybeChange_same]
    · simp [cnSizeMove, hip rfl, maybeChange_same]

/-- Step 3 with a cached outer position and no detected move reuses the
cache and emits nothing. -/
theorem cnOuterPos_cached (env : Env) (xw : Nat) (ws : WinState)
    (np : Int × Int) (p : Int × Int) (hp : ws.position = some p) :
    cnOuterPos env xw ws np false = (ws, p, []) := by
  simp [cnOuterPos, hp]

/-- Step 3 always leaves a cached outer position equal to the outer
position it returns. -/
theorem cnOuterPos_position (env : Env) (xw : Nat) (ws : WinState)
    (np : Int × Int) (mv : Bool) :
    (cnOuterPos env xw ws np mv).1.position
      = some (cnOuterPos env xw ws np mv).2.1 := by
  unfold cnOuterPos
  cases hp : ws.position with
  | some p =>
    cases mv
    · simp [hp]
    · rfl
  | none =>
    cases mv <;> rfl

/-- Step 3 touches only the frame-extents and outer-position caches. -/
theorem cnOuterPos_pres (env : Env) (xw : Nat) (ws : WinState)
    (np : Int × Int) (mv : Bool) :
    (cnOuterPos env xw ws np mv).1.size = ws.size
    ∧ (cnOuterPos env xw ws np mv).1.inner_position = ws.inner_position
    ∧ (cnOuterPos env xw ws np mv).1.inner_position_rel_parent
      = ws.inner_position_rel_parent
    ∧ (cnOuterPos env xw ws np mv).1.last_monitor = ws.last_monitor := by
  unfold cnOuterPos
  split
  · exact ⟨rfl, rfl, rfl, rfl⟩
  · split <;> exact ⟨rfl, rfl, rfl, rfl⟩

/-- Step 4 on a real notification is a no-op. -/
theorem cnScale_false (env : Env) (xw : Nat) (ws : WinState) (no : Int × Int)
    (ns es : Nat × Nat) (rz : Bool) :
    cnScale env xw ws no ns es rz false = (ws, rz, []) := rfl

/-- Step 4 never touches the geometry caches. -/
theorem cnScale_pres (env : Env) (xw : Nat) (ws : WinState) (no : Int × Int)
    (ns es : Nat × Nat) (rz syn : Bool) :
    (cnScale env xw ws no ns es rz syn).1.size = ws.size
    ∧ (cnScale env xw ws no ns es rz syn).1.inner_position = ws.inner_position
    ∧ (cnScale env xw ws no ns es rz syn).1.inner_position_rel_parent
      = ws.inner_position_rel_parent
    ∧ (cnScale env xw ws no ns es rz syn).1.position = ws.position := by
  cases syn
  · exact ⟨rfl, rfl, rfl, rfl⟩
  · simp only [cnScale]
    repeat' split
    all_goals exact ⟨rfl, rfl, rfl, rfl⟩

/-- Step 4 on a synthetic notification caches the queried monitor when
it is not a dummy. -/
theorem cnScale_monitor (env : Env) (xw : Nat) (ws : WinState) (no : Int × Int)
    (ns es : Nat × Nat) (rz : Bool)
    (hdum : (env.monitorFor no ns).dummy = false) :
    (cnScale env xw ws no ns es rz true).1.last_monitor = env.monitorFor no ns := by
  simp only [cnScale, hdum, Bool.false_eq_true, if_false, if_true]
  repeat' split
  all_goals rfl

/-- Step 4 with no prior resize flag emits nothing and keeps the flag
clear when the scale factor cannot change (dummy monitor, or the cached
monitor already has the queried scale factor). -/
theorem cnScale_noop (env : Env) (xw : Nat) (ws : WinState) (no : Int × Int)
    (ns es : Nat × Nat) (syn : Bool)
    (hm : syn = true → (env.monitorFor no ns).dummy = true
        ∨ ws.last_monitor.sf = (env.monitorFor no ns).sf) :
    (cnScale env xw ws no ns es false syn).2.1 = false
    ∧ (cnScale env xw ws no ns es false syn).2.2 = [] := by
  cases syn
  · exact ⟨rfl, rfl⟩
  · rcases hm rfl with hdum | hsf
    · constructor <;> simp [cnScale, hdum]
    · by_cases hdum : (env.monitorFor no ns).dummy
      · constructor <;> simp [cnScale, hdum]
      · constructor <;> simp [cnScale, hdum, hsf]

/-- Step 5 touches only the pending DPI-adjusted size. -/
theorem cnHack_pres (env : Env) (xw : Nat) (ws : WinState) (es : Nat × Nat) :
    (cnHack env xw ws es).1.size = ws.size
    ∧ (cnHack env xw ws es).1.inner_position = ws.inner_position
    ∧ (cnHack env xw ws es).1.inner_position_rel_parent
      = ws.inner_position_rel_parent
    ∧ (cnHack env xw ws es).1.position = ws.position
    ∧ (cnHack env xw ws es).1.last_monitor = ws.last_monitor := by
  unfold cnHack
  split
  · split <;> exact ⟨rfl, rfl, rfl, rfl, rfl⟩
  · exact ⟨rfl, rfl, rfl, rfl, rfl⟩

/-- Step 5 emits at most a resize request, never `Resized` or `Moved`. -/
theorem cnHack_outs (env : Env) (xw : Nat) (ws : WinState) (es : Nat × Nat) :
    ((cnHack env xw ws es).2).filter Out.isResizedOrMoved = [] := by
  unfold cnHack
  split
  · split <;> simp [Out.isResizedOrMoved]
  · rfl

/-- A geometry notification whose values all match the cached state
emits neither `Resized` nor `Moved` (nor `ScaleFactorChanged`). -/
theorem processConfigureNotify_stable (env : Env) (xw : Nat) (s : WinState)
    (w h : Nat) (x y : Int) (syn : Bool) (P : Int × Int)
    (hsz : s.size = some (w, h))
    (hip : syn = true → s.inner_position = some (x, y))
    (hrp : syn = false → s.inner_position_rel_parent = some (x, y))
    (hpos : s.position = some P)
    (hmon : syn = true → (env.monitorFor P (w, h)).dummy = true
        ∨ s.last_monitor.sf = (env.monitorFor P (w, h)).sf) :
    ((processConfigureNotify env xw s w h x y syn).2).filter
      Out.isResizedOrMoved = [] := by
  have hf := cnSizeMove_flags s (w, h) (x, y) syn hsz hip hrp
  have hzpos : (cnSizeMove s (w, h) (x, y) syn).1.position = some P := by
    rw [cnSizeMove_position]; exact hpos
  have hzmon : (cnSizeMove s (w, h) (x, y) syn).1.last_monitor = s.last_monitor :=
    cnSizeMove_monitor s (w, h) (x, y) syn
  simp only [processConfigureNotify]
  rw [hf.2, cnOuterPos_cached env xw _ (x, y) P hzpos]
  simp only
  rw [hf.1]
  have hnoop := cnScale_noop env xw (cnSizeMove s (w, h) (x, y) syn).1 P (w, h)
    (w, h) syn (fun hsyn => by rw [hzmon]; exact hmon hsyn)
  rw [hnoop.1, hnoop.2]
  simp [cnHack_outs]

/-- After one geometry notification the cached state matches the
notified values, and the cached monitor matches what a repeated query at
the cached outer position would return (unless the query yields a
dummy). -/
theorem processConfigureNotify_post (env : Env) (xw : Nat) (ws : WinState)
    (w h : Nat) (x y : Int) (syn : Bool) :
    ∃ P : Int × Int,
      (processConfigureNotify env xw ws w h x y syn).1.size = some (w, h)
      ∧ (syn = true →
          (processConfigureNotify env xw ws w h x y syn).1.inner_position
            = some (x, y))
      ∧ (syn = false →
          (processConfigureNotify env xw ws w h x y syn).1.inner_position_rel_parent
            = some (x, y))
      ∧ (processConfigureNotify env xw ws w h x y syn).1.position = some P
      ∧ (syn = true →
          (env.monitorFor P (w, h)).dummy = true
          ∨ (processConfigureNotify env xw ws w h x y syn).1.last_monitor.sf
            = (env.monitorFor P (w, h)).sf) := by
  refine ⟨(cnOuterPos env xw (cnSizeMove ws (w, h) (x, y) syn).1 (x, y)
      (cnSizeMove ws (w, h) (x, y) syn).2.2).2.1, ?_, ?_, ?_, ?_, ?_⟩
  · simp only [processConfigureNotify]
    rw [(cnHack_pres _ _ _ _).1, (cnScale_pres _ _ _ _ _ _ _ _).1,
      (cnOuterPos_pres _ _ _ _ _).1, cnSizeMove_size]
  · intro hsyn
    subst hsyn
    simp only [processConfigureNotify]
    rw [(cnHack_pres _ _ _ _).2.1, (cnScale_pres _ _ _ _ _ _ _ _).2.1,
      (cnOuterPos_pres _ _ _ _ _).2.1, cnSizeMove_inner]
  · intro hsyn
    subst hsyn
    simp only [processConfigureNotify]
    rw [(cnHack_pres _ _ _ _).2.2.1, (cnScale_pres _ _ _ _ _ _ _ _).2.2.1,
      (cnOuterPos_pres _ _ _ _ _).2.2.1, cnSizeMove_rel]
  · simp only [processConfigureNotify]
    rw [(cnHack_pres _ _ _ _).2.2.2.1, (cnScale_pres _ _ _ _ _ _ _ _).2.2.2,
      cnOuterPos_position]
  · intro hsyn
    subst hsyn
    by_cases hdum : (env.monitorFor (cnOuterPos env xw
        (cnSizeMove ws (w, h) (x, y) true).1 (x, y)
        (cnSizeMove ws (w, h) (x, y) true).2.2).2.1 (w, h)).dummy
    · exact Or.inl hdum
    · right
      simp only [processConfigureNotify]
      rw [(cnHack_pres _ _ _ _).2.2.2.2,
        cnScale_monitor _ _ _ _ _ _ _ (Bool.not_eq_true _ ▸ hdum)]

/-- Claim C9: applying the same geometry notification twice with
identical width, height and position emits `Resized`/`Moved` on the
first call only — the second call emits neither, since every cached
value already matches. -/
theorem c9_configure_notify_idempotent (env : Env) (xw : Nat) (ws : WinState)
    (w h : Nat) (x y : Int) (syn : Bool) :
    ((processConfigureNotify env xw
        (processConfigureNotify env xw ws w h x y syn).1 w h x y syn).2).filter
      Out.isResizedOrMoved = [] := by
  obtain ⟨P, h1, h2, h3, h4, h5⟩ := processConfigureNotify_post env xw ws w h x y syn
  exact processConfigureNotify_stable env xw _ w h x y syn P h1 h2 h3 h4 h5

/-- Witness for `c10_raw_key_below_offset_dropped` at keycode `5`. -/
theorem c10_raw_key_below_offset_dropped_witness :
    processEvent env0 sActive (XEvent.xinputRawKey true 6 5) = (sActive, []) :=
  c10_raw_key_below_offset_dropped env0 sActive true 6 5 (by decide)

end WinitX11
